import Mathlib

/-!
Verification of the ant-simulation / Game-of-Life repository.

The Python sources (src/ants.py, src/conway.py) are embedded shallowly:
* machine integers are Int (Python ints are unbounded);
* Python lists are Lean lists; where object identity matters (the shared
  path objects of ants.py) a list object is modelled as a pair of a
  numeric object id and its contents;
* Python list indexing (which wraps negative indices and raises IndexError
  out of range) and list.remove (which raises ValueError when no element
  matches) are modelled explicitly;
* the pygame rendering / input layer is out of scope; the grid constants,
  the agent state machine, the registry helpers and the food toggle of the
  event loop are embedded from the source.
-/

namespace Conway

/-- Offset pairs scanned by the two nested loops of the source
(y_offset outer, x_offset inner, each over range(-1, 2)); a pair is stored
as (x_offset, y_offset). -/
def offsets : List (Int × Int) :=
  [(-1, -1), (0, -1), (1, -1), (-1, 0), (0, 0), (1, 0), (-1, 1), (0, 1), (1, 1)]

/-- Cell lookup grid[y][x]; only ever evaluated by the source under bounds
checks that make the defaults unreachable. -/
def cellAt (grid : List (List Bool)) (x y : Int) : Bool :=
  (grid.getD y.toNat []).getD x.toNat false

/-- Embedding of get_living_neighbours (src/conway.py lines 22-36): count of
True values at the surrounding offsets, skipping the centre and anything
outside [0, len(grid)) x [0, len(grid[0])). -/
def get_living_neighbours (grid : List (List Bool)) (pos : Int × Int) : Nat :=
  offsets.foldl (fun count o =>
    if (o.2 ≠ 0 ∨ o.1 ≠ 0)
        ∧ 0 ≤ pos.2 + o.2 ∧ pos.2 + o.2 < (grid.length : Int)
        ∧ 0 ≤ pos.1 + o.1 ∧ pos.1 + o.1 < ((grid.headD []).length : Int)
        ∧ cellAt grid (pos.1 + o.1) (pos.2 + o.2) = true
    then count + 1 else count) 0

/-- Embedding of get_new_state (src/conway.py lines 39-49). -/
def get_new_state (grid : List (List Bool)) (pos : Int × Int) : Bool :=
  let current_state := cellAt grid pos.1 pos.2
  let living_neighbours := get_living_neighbours grid pos
  if current_state then decide (living_neighbours = 2 ∨ living_neighbours = 3)
  else decide (living_neighbours = 3)

/-- The 8 neighbour offsets, centre excluded (claim-side formulation). -/
def neighbourOffsets : List (Int × Int) :=
  [(-1, -1), (0, -1), (1, -1), (-1, 0), (1, 0), (-1, 1), (0, 1), (1, 1)]

/-- Claim-side neighbour count: among the 8 non-centre offsets, the number
whose cell is in-bounds and alive.  By construction it never looks at the
queried cell (the centre offset is absent) nor at an out-of-bounds cell. -/
def livingNeighbourCount (grid : List (List Bool)) (pos : Int × Int) : Nat :=
  (neighbourOffsets.filter (fun o =>
    decide (0 ≤ pos.2 + o.2 ∧ pos.2 + o.2 < (grid.length : Int)
      ∧ 0 ≤ pos.1 + o.1 ∧ pos.1 + o.1 < ((grid.headD []).length : Int)
      ∧ cellAt grid (pos.1 + o.1) (pos.2 + o.2) = true))).length

/-- In-bounds positions of the (rectangular) grid. -/
def gridInBounds (grid : List (List Bool)) (p : Int × Int) : Prop :=
  0 ≤ p.1 ∧ p.1 < ((grid.headD []).length : Int)
    ∧ 0 ≤ p.2 ∧ p.2 < (grid.length : Int)

instance (grid : List (List Bool)) (p : Int × Int) :
    Decidable (gridInBounds grid p) := by
  unfold gridInBounds; infer_instance

end Conway

namespace Ants

/-- Grid coordinates are Python int pairs. -/
abbrev Coord := Int × Int

def GRID_WIDTH : Int := 50

def GRID_HEIGHT : Int := 50

/-- ANT_HOME_COORD = (GRID_WIDTH // 2, GRID_HEIGHT // 2) = (25, 25). -/
def ANT_HOME_COORD : Coord := (GRID_WIDTH / 2, GRID_HEIGHT / 2)

def FOOD_HUNT : Nat := 0

def FOLLOW_PATH_FOOD : Nat := 1

def FOLLOW_PATH_HOME : Nat := 2

/-- A Python list object holding a path: a numeric object id (modelling
CPython object identity) paired with the list contents.  Python operations
that create a new list (the copies on publish and adoption, slicing) get a
fresh id; in-place mutation (append) keeps the id. -/
abbrev PathObj := Nat × List Coord

/-- Embedding of the Ant dataclass (src/ants.py lines 39-51); draw_offset is
rendering-only and carries no simulation state. -/
structure Ant where
  coord : Coord
  state : Nat
  current_path : PathObj
  current_path_index : Int
deriving DecidableEq, Repr

/-- A freshly constructed Ant() with a given id for its (empty) path list. -/
def initAnt (pid : Nat) : Ant :=
  { coord := ANT_HOME_COORD, state := FOOD_HUNT,
    current_path := (pid, []), current_path_index := -1 }

/-- The mutable simulation state threaded through Ant.tick: the food list,
the registry of published paths, and the ants themselves. -/
structure SimState where
  food : List Coord
  paths : List PathObj
  ants : List Ant
deriving DecidableEq, Repr

/-- Python list indexing: negative indices wrap once by the length; anything
still out of [0, len) raises IndexError. -/
def pyGet {α : Type} (l : List α) (i : Int) : Except String α :=
  let j : Int := if i < 0 then i + l.length else i
  if h : 0 ≤ j ∧ j < (l.length : Int) then
    .ok (l.get ⟨j.toNat, by omega⟩)
  else .error "IndexError"

/-- Removal of the first element satisfying a predicate; none when no
element matches. -/
def removeFirstP {α : Type} (p : α → Bool) : List α → Option (List α)
  | [] => none
  | a :: rest => if p a then some rest else (removeFirstP p rest).map (a :: ·)

/-- Python list.remove on the path registry: scans left to right and removes
the first element that is the same object or compares equal (CPython's
identity-then-equality element test); none models the ValueError raised when
no element matches. -/
def pyListRemove (paths : List PathObj) (x : PathObj) : Option (List PathObj) :=
  removeFirstP (fun a => a.1 == x.1 || a.2 == x.2) paths

/-- In-bounds predicate of the 50 x 50 grid. -/
def inBounds (p : Coord) : Prop :=
  0 ≤ p.1 ∧ p.1 < GRID_WIDTH ∧ 0 ≤ p.2 ∧ p.2 < GRID_HEIGHT

instance (p : Coord) : Decidable (inBounds p) := by
  unfold inBounds; infer_instance

/-- Offset pairs scanned by the nested loops of get_adjacent_food and
get_adjacent_paths (y_offset outer, x_offset inner, each over range(-1, 2)),
stored as (x_offset, y_offset). -/
def offsets : List (Int × Int) :=
  [(-1, -1), (0, -1), (1, -1), (-1, 0), (0, 0), (1, 0), (-1, 1), (0, 1), (1, 1)]

/-- Embedding of get_adjacent_food (src/ants.py lines 122-138). -/
def get_adjacent_food (food : List Coord) (pos : Coord) : List Coord :=
  List.flatMap offsets (fun o =>
    let new_pos : Coord := (pos.1 + o.1, pos.2 + o.2)
    if (o.2 ≠ 0 ∨ o.1 ≠ 0)
        ∧ 0 ≤ new_pos.2 ∧ new_pos.2 < GRID_HEIGHT
        ∧ 0 ≤ new_pos.1 ∧ new_pos.1 < GRID_WIDTH
        ∧ new_pos ∈ food
    then [new_pos] else [])

/-- Embedding of get_adjacent_paths (src/ants.py lines 141-158): for each
in-bounds neighbour cell (centre excluded), every registry path containing
that cell contributes the pair of the path object and the first index of the
cell in it. -/
def get_adjacent_paths (pos : Coord) (paths : List PathObj) :
    List (PathObj × Nat) :=
  List.flatMap offsets (fun o =>
    let new_pos : Coord := (pos.1 + o.1, pos.2 + o.2)
    if (o.2 ≠ 0 ∨ o.1 ≠ 0)
        ∧ 0 ≤ new_pos.2 ∧ new_pos.2 < GRID_HEIGHT
        ∧ 0 ≤ new_pos.1 ∧ new_pos.1 < GRID_WIDTH
    then (paths.filter (fun x => new_pos ∈ x.2)).map
      (fun x => (x, x.2.indexOf new_pos))
    else [])

/-- The direction list built by the random-walk branch (src/ants.py lines
75-78) before shuffling. -/
def directions : List Coord :=
  [(1, 0), (0, 1), (-1, 0), (0, -1), (1, 1), (-1, -1), (-1, 1), (1, -1)]

/-- The for-with-break of the random walk: the first direction of the
(already shuffled) list whose resulting position is in bounds. -/
def firstStep (dirs : List Coord) (coord : Coord) : Option Coord :=
  dirs.findSome? (fun vector =>
    let new_pos : Coord := (coord.1 + vector.1, coord.2 + vector.2)
    if inBounds new_pos then some new_pos else none)

/-- The random draws one call of Ant.tick may consume: the shuffled
direction order for the random walk, the index drawn by random.choice, and
the object id of any list created during the call. -/
structure Rand where
  dirs : List Coord
  choice : Nat
  freshId : Nat

/-- Embedding of Ant.tick (src/ants.py lines 53-119) for the ant at list
index i, acting on the shared simulation state.  Copies (publish, adoption,
the truncating slice) produce objects with id r.freshId; append mutates in
place and keeps the id.  random.choice over a non-empty list is modelled by
the index r.choice % length.  Errors model the exceptions Python raises. -/
def tick (r : Rand) (i : Nat) (s : SimState) : Except String SimState :=
  match s.ants[i]? with
  | none => .error "IndexError"
  | some a =>
    if a.state = FOOD_HUNT then
      if 1 ≤ (get_adjacent_food s.food a.coord).length then
        let a2 := { a with state := FOLLOW_PATH_HOME }
        .ok { s with paths := s.paths ++ [(r.freshId, a.current_path.2)],
                     ants := s.ants.set i a2 }
      else
        let adjacent_paths := get_adjacent_paths a.coord s.paths
        if 1 ≤ adjacent_paths.length then
          let new_path := adjacent_paths.getD
            (r.choice % adjacent_paths.length) ((0, []), 0)
          match pyGet new_path.1.2 (new_path.2 : Int) with
          | .error e => .error e
          | .ok c =>
            let a2 := { a with current_path := (r.freshId, new_path.1.2),
                               current_path_index := (new_path.2 : Int),
                               coord := c,
                               state := FOLLOW_PATH_FOOD }
            .ok { s with ants := s.ants.set i a2 }
        else
          match firstStep r.dirs a.coord with
          | none => .ok s
          | some new_pos =>
            if new_pos ∈ a.current_path.2 then
              let index := a.current_path.2.indexOf new_pos
              let a2 := { a with coord := new_pos,
                                 current_path :=
                                   (r.freshId, a.current_path.2.take (index + 1)),
                                 current_path_index := (index : Int) }
              .ok { s with ants := s.ants.set i a2 }
            else
              let a2 := { a with coord := new_pos,
                                 current_path :=
                                   (a.current_path.1,
                                     a.current_path.2 ++ [new_pos]),
                                 current_path_index :=
                                   a.current_path_index + 1 }
              .ok { s with ants := s.ants.set i a2 }
    else if a.state = FOLLOW_PATH_FOOD then
      if a.current_path_index = (a.current_path.2.length : Int) - 1 then
        if 1 ≤ (get_adjacent_food s.food a.coord).length then
          let a2 := { a with state := FOLLOW_PATH_HOME }
          .ok { s with ants := s.ants.set i a2 }
        else
          match pyListRemove s.paths a.current_path with
          | none => .error "ValueError"
          | some ps =>
            let newAnts := s.ants.map (fun b =>
              if b.current_path.2 = a.current_path.2
              then { b with state := FOOD_HUNT } else b)
            .ok { s with paths := ps, ants := newAnts }
      else
        match pyGet a.current_path.2 (a.current_path_index + 1) with
        | .error e => .error e
        | .ok c =>
          let a2 := { a with current_path_index := a.current_path_index + 1,
                             coord := c }
          .ok { s with ants := s.ants.set i a2 }
    else if a.state = FOLLOW_PATH_HOME then
      if a.current_path_index = 0 then
        let a2 := { a with state := FOLLOW_PATH_FOOD }
        .ok { s with ants := s.ants.set i a2 }
      else
        match pyGet a.current_path.2 (a.current_path_index - 1) with
        | .error e => .error e
        | .ok c =>
          let a2 := { a with current_path_index := a.current_path_index - 1,
                             coord := c }
          .ok { s with ants := s.ants.set i a2 }
    else .ok s

/-- Iterated ticks of the same ant index (the random draws of each call are
irrelevant in the path-following states this is used for). -/
def iterTick (r : Rand) (i : Nat) : Nat → SimState → Except String SimState
  | 0, s => .ok s
  | n + 1, s =>
    match tick r i s with
    | .error e => .error e
    | .ok s2 => iterTick r i n s2

/-- Python list.remove on a coordinate list: drop the first occurrence
(always called under a membership guard in the source). -/
def pyRemoveCoord : List Coord → Coord → List Coord
  | [], _ => []
  | a :: t, c => if a = c then t else a :: pyRemoveCoord t c

/-- Embedding of the food toggle of the event loop (src/ants.py lines
213-216): remove the first occurrence if present, else append. -/
def toggle_food (food_coords : List Coord) (grid_pos : Coord) : List Coord :=
  if grid_pos ∈ food_coords then pyRemoveCoord food_coords grid_pos
  else food_coords ++ [grid_pos]

/-- Two cells differ by exactly one of the 8 unit directions. -/
def adjacent8 (a b : Coord) : Bool :=
  decide ((b.1 - a.1, b.2 - a.2) ∈ directions)

/-- Each consecutive pair of the list is 8-adjacent. -/
def connected8 : List Coord → Bool
  | a :: b :: rest => adjacent8 a b && connected8 (b :: rest)
  | _ => true

/-- The agent invariant stated by the specification: the coordinate matches
the cursor cell whenever the cursor is non-negative, and a non-empty path
keeps the cursor in range and is 8-connected and loop-free. -/
def agentInv (a : Ant) : Prop :=
  (0 ≤ a.current_path_index →
    a.current_path.2[a.current_path_index.toNat]? = some a.coord)
  ∧ (a.current_path.2 ≠ [] →
      0 ≤ a.current_path_index
      ∧ a.current_path_index < (a.current_path.2.length : Int)
      ∧ connected8 a.current_path.2 = true
      ∧ a.current_path.2.Nodup)

instance (a : Ant) : Decidable (agentInv a) := by
  unfold agentInv; infer_instance

/-- The 8 neighbour offsets of a cell, centre excluded (claim-side list for
the adjacency queries). -/
def antNeighbourOffsets : List (Int × Int) :=
  [(-1, -1), (0, -1), (1, -1), (-1, 0), (1, 0), (-1, 1), (0, 1), (1, 1)]

/-- Fixed random draws used by the concrete scenarios below: the direction
list in its source order (one possible shuffle result), choice 0, and 5 as
the id of any list object the call creates. -/
def rand0 : Rand := ⟨directions, 0, 5⟩

/-- A two-cell path leading east from the cell next to home. -/
def pathAB : List Coord := [(26, 25), (27, 25)]

/-- Simulation start with one agent at home and food already adjacent to the
home coordinate (reachable: food is toggled at (26,25) before the first
tick). -/
def sC9start : SimState := ⟨[(26, 25)], [], [initAnt 0]⟩

/-- The state one tick later: an empty path was published and the agent sits
in FOLLOW_PATH_HOME with an empty path and cursor -1. -/
def sC9mid : SimState :=
  ⟨[(26, 25)], [(5, [])], [⟨ANT_HOME_COORD, FOLLOW_PATH_HOME, (0, []), -1⟩]⟩

/-- A FOOD_HUNT agent whose cursor sits mid-path: exactly the shape an
invalidation reset leaves behind (the agent was following the path at cursor
0 when another agent removed it and forced this one back to FOOD_HUNT). -/
def antStale : Ant :=
  ⟨(26, 25), FOOD_HUNT, (0, [(26, 25), (27, 25), (28, 25)]), 0⟩

/-- Random draws whose shuffled direction list starts with north. -/
def randNorth : Rand := ⟨[(0, -1)], 0, 7⟩

/-- The agent antStale becomes after one random-walk tick stepping north. -/
def antStaleAfter : Ant :=
  ⟨(26, 24), FOOD_HUNT, (0, [(26, 25), (27, 25), (28, 25), (26, 24)]), 1⟩

/-- An agent one step from home, at the final (and only) cell of its path,
with food adjacent: start of the round-trip scenario. -/
def sRoundTrip : SimState :=
  ⟨[(27, 25)], [(0, [(26, 25)])],
    [⟨(26, 25), FOLLOW_PATH_FOOD, (1, [(26, 25)]), 0⟩]⟩

/-- Two agents walking private copies (ids 1 and 2) of the published path
(id 0) whose far-end food has been removed; agent 0 is at the final index. -/
def sInvalidate : SimState :=
  ⟨[], [(0, pathAB)],
    [⟨(27, 25), FOLLOW_PATH_FOOD, (1, pathAB), 1⟩,
     ⟨(26, 25), FOLLOW_PATH_FOOD, (2, pathAB), 0⟩]⟩

/-- The agents of sInvalidate after the invalidating tick: both reset to
FOOD_HUNT within that same tick. -/
def sInvalidated : SimState :=
  ⟨[], [],
    [⟨(27, 25), FOOD_HUNT, (1, pathAB), 1⟩,
     ⟨(26, 25), FOOD_HUNT, (2, pathAB), 0⟩]⟩

/-- A hunting agent whose private path runs through (26,25), onto which food
has since been toggled; the agent stands at (27,25), adjacent to the food. -/
def sFoodOnPath : SimState :=
  ⟨[(26, 25)], [], [⟨(27, 25), FOOD_HUNT, (1, pathAB), 1⟩]⟩

/-- A hunting agent with a one-cell path, used to exercise the random
walk. -/
def sWalk : SimState := ⟨[], [], [⟨(26, 25), FOOD_HUNT, (0, [(26, 25)]), 0⟩]⟩

/-- Random draws for the walk scenario. -/
def randWalk : Rand := ⟨directions, 0, 7⟩

/-- A hunting agent standing at (26,24), diagonal to both cells of the
published path pathAB, used to exercise adoption. -/
def sAdopt : SimState :=
  ⟨[], [(0, pathAB)], [⟨(26, 24), FOOD_HUNT, (3, []), -1⟩]⟩

/-- Random draws for the adoption scenario: random.choice picks entry 1. -/
def randAdopt : Rand := ⟨directions, 1, 9⟩

/-- A hunting agent one step from home with food one further step east,
at the final index of its one-cell path: a publish scenario whose cursor
sits at the path end. -/
def sPublish : SimState :=
  ⟨[(27, 25)], [], [⟨(26, 25), FOOD_HUNT, (0, [(26, 25)]), 0⟩]⟩

end Ants

namespace Conway

theorem foldl_count_aux {α : Type} (p : α → Prop) [DecidablePred p] :
    ∀ (l : List α) (n : Nat),
      l.foldl (fun c o => if p o then c + 1 else c) n
        = n + (l.filter (fun o => decide (p o))).length := by
  intro l
  induction l with
  | nil => intro n; simp
  | cons a t ih =>
    intro n
    by_cases h : p a <;> simp [List.foldl, h, ih] <;> omega

/-- C10: for every grid and in-bounds position, get_new_state is true iff
the cell is alive with 2 or 3 live 8-neighbours, or dead with exactly 3;
and get_living_neighbours equals the count over the 8 non-centre offsets of
in-bounds live cells, so it never counts the queried cell or an
out-of-bounds cell. -/
theorem claimC10_life_rule (grid : List (List Bool)) (pos : Int × Int)
    (hin : gridInBounds grid pos) :
    get_living_neighbours grid pos = livingNeighbourCount grid pos
    ∧ (get_new_state grid pos = true ↔
        (cellAt grid pos.1 pos.2 = true
          ∧ (get_living_neighbours grid pos = 2
              ∨ get_living_neighbours grid pos = 3))
        ∨ (cellAt grid pos.1 pos.2 = false
            ∧ get_living_neighbours grid pos = 3)) := by
  constructor
  · rw [get_living_neighbours, foldl_count_aux]
    simp only [livingNeighbourCount, offsets, neighbourOffsets,
      List.filter_cons, List.filter_nil, decide_eq_true_eq]
    norm_num
  · rw [get_new_state]
    rcases h : cellAt grid pos.1 pos.2 <;> simp [h]

/-- Witness for C10 at a concrete grid and position. -/
theorem claimC10_life_rule_witness :
    gridInBounds [[true, true], [true, false]] (0, 0)
    ∧ (get_living_neighbours [[true, true], [true, false]] (0, 0)
        = livingNeighbourCount [[true, true], [true, false]] (0, 0)
      ∧ (get_new_state [[true, true], [true, false]] (0, 0) = true ↔
          (cellAt [[true, true], [true, false]] 0 0 = true
            ∧ (get_living_neighbours [[true, true], [true, false]] (0, 0) = 2
                ∨ get_living_neighbours [[true, true], [true, false]] (0, 0) = 3))
          ∨ (cellAt [[true, true], [true, false]] 0 0 = false
              ∧ get_living_neighbours [[true, true], [true, false]] (0, 0) = 3))) :=
  ⟨by decide, claimC10_life_rule [[true, true], [true, false]] (0, 0) (by decide)⟩

end Conway

namespace Ants

/-- C8: toggling food twice in a row at the same in-bounds coordinate
restores the FoodSet.  The FoodSet of the specification is a set, modelled
as a duplicate-free list (the event loop never creates duplicates); the
restored food list is a permutation of the original, hence the same set.
When the coordinate was present it is removed (first conjunct) and then
re-added; when absent it is added and then removed. -/
theorem pyRemoveCoord_perm (c : Coord) :
    ∀ l : List Coord, c ∈ l → l.Perm (c :: pyRemoveCoord l c) := by
  intro l
  induction l with
  | nil => intro h; simp at h
  | cons a t ih =>
    intro h
    by_cases hac : a = c
    · subst hac
      simp [pyRemoveCoord]
    · have hct : c ∈ t := by
        rcases List.mem_cons.mp h with h1 | h1
        · exact absurd h1.symm hac
        · exact h1
      have step1 : (a :: t).Perm (a :: c :: pyRemoveCoord t c) := (ih hct).cons a
      have step2 : (a :: c :: pyRemoveCoord t c).Perm
          (c :: a :: pyRemoveCoord t c) := List.Perm.swap c a _
      have step3 : (a :: t).Perm (c :: a :: pyRemoveCoord t c) :=
        step1.trans step2
      simpa [pyRemoveCoord, hac] using step3

theorem pyRemoveCoord_not_mem_of_nodup (c : Coord) :
    ∀ l : List Coord, l.Nodup → c ∉ pyRemoveCoord l c := by
  intro l
  induction l with
  | nil => intro _; simp [pyRemoveCoord]
  | cons a t ih =>
    intro hnd
    rcases List.nodup_cons.mp hnd with ⟨hat, hndt⟩
    by_cases hac : a = c
    · subst hac
      simpa [pyRemoveCoord] using hat
    · simp only [pyRemoveCoord, if_neg hac, List.mem_cons]
      push_neg
      exact ⟨fun h => hac h.symm, ih hndt⟩

theorem pyRemoveCoord_append_self (c : Coord) :
    ∀ l : List Coord, c ∉ l → pyRemoveCoord (l ++ [c]) c = l := by
  intro l
  induction l with
  | nil => intro _; simp [pyRemoveCoord]
  | cons a t ih =>
    intro h
    have hac : a ≠ c := fun hh => h (by simp [hh])
    have hct : c ∉ t := fun hh => h (by simp [hh])
    simp [pyRemoveCoord, hac, ih hct]

/-- C8: toggling food twice in a row at the same in-bounds coordinate
restores the FoodSet.  The FoodSet of the specification is a set, modelled
as a duplicate-free list (the event loop never creates duplicates); the
restored food list is a permutation of the original, hence the same set.
When the coordinate was present it is removed (first conjunct) and then
re-added; when absent it is added and then removed. -/
theorem claimC8_toggle_twice (food : List Coord) (pos : Coord)
    (hb : inBounds pos) (hnd : food.Nodup) :
    (pos ∈ food → pos ∉ toggle_food food pos)
    ∧ (pos ∉ food → pos ∈ toggle_food food pos)
    ∧ (toggle_food (toggle_food food pos) pos).Perm food := by
  by_cases h : pos ∈ food
  · refine ⟨fun _ => ?_, fun hc => absurd h hc, ?_⟩
    · simp only [toggle_food, if_pos h]
      exact pyRemoveCoord_not_mem_of_nodup pos food hnd
    · have h2 : pos ∉ pyRemoveCoord food pos :=
        pyRemoveCoord_not_mem_of_nodup pos food hnd
      simp only [toggle_food, if_pos h, if_neg h2]
      exact ((pyRemoveCoord food pos).perm_append_singleton pos).trans
        (pyRemoveCoord_perm pos food h).symm
  · refine ⟨fun hc => absurd hc h, fun _ => ?_, ?_⟩
    · simp [toggle_food, h]
    · have h2 : pos ∈ food ++ [pos] := by simp
      simp only [toggle_food, if_neg h, if_pos h2]
      rw [pyRemoveCoord_append_self pos food h]

/-- Witness for C8: toggling (26,25) twice on a concrete food list that
contains it restores the list up to permutation. -/
theorem claimC8_toggle_twice_witness :
    (toggle_food (toggle_food [(26, 25), (3, 4)] (26, 25)) (26, 25)).Perm
      [(26, 25), (3, 4)] :=
  (claimC8_toggle_twice [(26, 25), (3, 4)] (26, 25) (by decide) (by decide)).2.2

theorem removeFirstP_eq_none {α : Type} (p : α → Bool) :
    ∀ l : List α, removeFirstP p l = none ↔ ∀ a ∈ l, p a = false := by
  intro l
  induction l with
  | nil => simp [removeFirstP]
  | cons a t ih =>
    by_cases h : p a <;> simp [removeFirstP, h, ih]

theorem removeFirstP_eq_some {α : Type} (p : α → Bool) :
    ∀ l l2 : List α, removeFirstP p l = some l2 →
      ∃ l0 m l1, l = l0 ++ m :: l1 ∧ l2 = l0 ++ l1 ∧ p m = true
        ∧ ∀ b ∈ l0, p b = false := by
  intro l
  induction l with
  | nil => intro l2 h; simp [removeFirstP] at h
  | cons a t ih =>
    intro l2 h
    by_cases hp : p a
    · simp only [removeFirstP, if_pos hp, Option.some.injEq] at h
      exact ⟨[], a, t, by simp, by simp [h], hp, by simp⟩
    · simp only [removeFirstP, if_neg hp, Option.map_eq_some'] at h
      obtain ⟨t2, ht2, rfl⟩ := h
      obtain ⟨l0, m, l1, rfl, rfl, hm, hl0⟩ := ih t2 ht2
      refine ⟨a :: l0, m, l1, by simp, by simp, hm, ?_⟩
      intro b hb
      rcases List.mem_cons.mp hb with rfl | hb
      · simpa using hp
      · exact hl0 b hb

/-- C3 counterexample: with the structurally identical but distinct path
objects (0, [(26,25)]) and (1, [(26,25)]) both in the registry, removing the
object with id 1 in fact removes the object with id 0 (list.remove scans for
the first element comparing equal), leaving the referenced object itself in
the registry — removal is by value, not identity; and removing a path from
an empty registry yields none, the model of an uncaught ValueError, not a
silent no-op. -/
theorem claimC3_remove_counterexample :
    pyListRemove [(0, [(26, 25)]), (1, [(26, 25)])] (1, [(26, 25)])
      = some [(1, [(26, 25)])]
    ∧ pyListRemove [(0, [(26, 25)]), (1, [(26, 25)])] (1, [(26, 25)])
      ≠ some [(0, [(26, 25)])]
    ∧ pyListRemove ([] : List PathObj) (1, [(26, 25)]) = none := by
  refine ⟨by decide, by decide, by decide⟩

/-- C3 amended: the registry removal removes the first path object that is
the same object or structurally equal to the argument (CPython's
identity-then-equality element test), regardless of identity; when no such
element exists it raises ValueError (modelled as none) rather than failing
silently. -/
theorem claimC3_remove_semantics (paths : List PathObj) (x : PathObj) :
    (pyListRemove paths x = none ↔ ∀ a ∈ paths, a.1 ≠ x.1 ∧ a.2 ≠ x.2)
    ∧ ∀ l2, pyListRemove paths x = some l2 →
        ∃ l0 m l1, paths = l0 ++ m :: l1 ∧ l2 = l0 ++ l1
          ∧ (m.1 = x.1 ∨ m.2 = x.2)
          ∧ ∀ b ∈ l0, b.1 ≠ x.1 ∧ b.2 ≠ x.2 := by
  constructor
  · rw [pyListRemove, removeFirstP_eq_none]
    constructor
    · intro h a ha
      have := h a ha
      simpa using this
    · intro h a ha
      have := h a ha
      simpa using this
  · intro l2 h
    obtain ⟨l0, m, l1, h1, h2, hm, hl0⟩ := removeFirstP_eq_some _ paths l2 h
    refine ⟨l0, m, l1, h1, h2, by simpa using hm, ?_⟩
    intro b hb
    have := hl0 b hb
    simpa using this

/-- Witness for C3 (amended): removal from a registry holding no match
raises (none), at a concrete input. -/
theorem claimC3_remove_semantics_witness :
    pyListRemove [(0, [(3, 3)])] (1, [(26, 25)]) = none :=
  (claimC3_remove_semantics [(0, [(3, 3)])] (1, [(26, 25)])).1.mpr (by decide)

end Ants

namespace Ants

/-- C9: from the initial configuration with food toggled adjacent to home,
the first tick publishes an empty path and leaves the agent in
FOLLOW_PATH_HOME with an empty current_path and cursor -1; the next tick,
for every possible random draw, decrements the cursor to -2 and indexes the
empty list, raising IndexError — so the FOLLOW_PATH_HOME step is total only
under the precondition that current_path is non-empty, and the out-of-range
branch is reachable without it. -/
theorem claimC9_empty_path_crash :
    tick rand0 0 sC9start = .ok sC9mid
    ∧ ∀ r : Rand, tick r 0 sC9mid = .error "IndexError" := by
  exact ⟨rfl, fun r => rfl⟩

/-- C2 (code-bug evidence): the agent invariant is not preserved by every
tick from every reachable state.  antStale — a FOOD_HUNT agent whose cursor
sits mid-path, exactly the shape an invalidation reset leaves behind —
satisfies the stated invariant, yet one random-walk tick stepping north
appends (26,24) to the path and leaves coord = (26,24) while
current_path[1] = (27,25), with the path no longer 8-connected: both
coordinate = current_path[path_cursor] and 8-connectivity are broken. -/
theorem claimC2_invariant_broken :
    agentInv antStale
    ∧ tick randNorth 0 ⟨[], [], [antStale]⟩ = .ok ⟨[], [], [antStaleAfter]⟩
    ∧ ¬ agentInv antStaleAfter
    ∧ connected8 antStaleAfter.current_path.2 = false := by
  refine ⟨by decide, rfl, by decide, by decide⟩

/-- C1 counterexample: in sInvalidate the registry's only path object has id
0 while the ticking agent's current_path object has id 1 (each agent holds a
copy, never the registry object itself), so nothing identity-equal to the
agent's path object is in the registry; the tick nevertheless removes the
registry path (matching by value) and also resets agent 1, whose path object
(id 2) is likewise not identity-equal to the removed object.  The claimed
identity-based removal is therefore false of the code. -/
theorem claimC1_identity_counterexample :
    tick rand0 0 sInvalidate = .ok sInvalidated
    ∧ (∀ p ∈ sInvalidate.paths,
        p.1 ≠ (sInvalidate.ants.getD 0 (initAnt 9)).current_path.1)
    ∧ sInvalidated.paths = [] := by
  refine ⟨rfl, by decide, rfl⟩

/-- C4 counterexample: the round trip ends one step from home, not at the
home coordinate.  From sRoundTrip (agent at the final index of its one-cell
path [(26,25)] with food adjacent), two ticks complete the FOLLOW_PATH_HOME
leg and flip back to FOLLOW_PATH_FOOD with the agent on (26,25) =
current_path[0], which differs from ANT_HOME_COORD = (25,25): the initial
path is empty and the first walk step appends the cell stepped onto, so a
path need not start at the home coordinate and cursor 0 need not be
home. -/
theorem claimC4_not_home_counterexample :
    iterTick rand0 0 2 sRoundTrip = .ok sRoundTrip
    ∧ (sRoundTrip.ants.getD 0 (initAnt 9)).state = FOLLOW_PATH_FOOD
    ∧ (sRoundTrip.ants.getD 0 (initAnt 9)).coord ≠ ANT_HOME_COORD := by
  refine ⟨rfl, rfl, by decide⟩

/-- C6 counterexample: publishing does not exclude the food coordinate.  In
sFoodOnPath the food (26,25) sits on a cell the agent's private path already
passes through (food was toggled there after the walk); the tick publishes
that path unchanged, so the published path contains the food coordinate. -/
theorem claimC6_publish_counterexample :
    tick rand0 0 sFoodOnPath
      = .ok ⟨[(26, 25)], [(5, pathAB)],
          [⟨(27, 25), FOLLOW_PATH_HOME, (1, pathAB), 1⟩]⟩
    ∧ (26, 25) ∈ pathAB ∧ (26, 25) ∈ sFoodOnPath.food := by
  refine ⟨rfl, by decide, by decide⟩

end Ants

namespace Ants

theorem pyGet_coe {α : Type} (l : List α) (k : Nat) (d : α)
    (hk : k < l.length) : pyGet l (k : Int) = .ok (l.getD k d) := by
  unfold pyGet
  have h0 : ¬ ((k : Int) < 0) := by omega
  simp only [h0, if_false]
  rw [dif_pos (by omega)]
  congr 1
  rw [List.getD_eq_getElem l d hk]
  simp [List.get_eq_getElem]

theorem tick_publish (r : Rand) (i : Nat) (s : SimState) (a : Ant)
    (ha : s.ants[i]? = some a) (hstate : a.state = FOOD_HUNT)
    (hfood : 1 ≤ (get_adjacent_food s.food a.coord).length) :
    tick r i s = .ok { s with
      paths := s.paths ++ [(r.freshId, a.current_path.2)],
      ants := s.ants.set i { a with state := FOLLOW_PATH_HOME } } := by
  unfold tick
  rw [ha]
  simp [hstate, hfood]

theorem tick_arrive (r : Rand) (i : Nat) (s : SimState) (a : Ant)
    (ha : s.ants[i]? = some a) (hstate : a.state = FOLLOW_PATH_FOOD)
    (hend : a.current_path_index = (a.current_path.2.length : Int) - 1)
    (hfood : 1 ≤ (get_adjacent_food s.food a.coord).length) :
    tick r i s = .ok { s with
      ants := s.ants.set i { a with state := FOLLOW_PATH_HOME } } := by
  unfold tick
  rw [ha]
  simp [hstate, hend, hfood, FOLLOW_PATH_FOOD, FOOD_HUNT]

theorem tick_home_flip (r : Rand) (i : Nat) (s : SimState) (a : Ant)
    (ha : s.ants[i]? = some a) (hstate : a.state = FOLLOW_PATH_HOME)
    (h0 : a.current_path_index = 0) :
    tick r i s = .ok { s with
      ants := s.ants.set i { a with state := FOLLOW_PATH_FOOD } } := by
  unfold tick
  rw [ha]
  simp [hstate, h0, FOLLOW_PATH_HOME, FOLLOW_PATH_FOOD, FOOD_HUNT]

theorem tick_home_step (r : Rand) (i : Nat) (s : SimState) (a : Ant)
    (ha : s.ants[i]? = some a) (hstate : a.state = FOLLOW_PATH_HOME)
    (h0 : a.current_path_index ≠ 0) (c : Coord)
    (hc : pyGet a.current_path.2 (a.current_path_index - 1) = .ok c) :
    tick r i s = .ok { s with
      ants := s.ants.set i { a with
        current_path_index := a.current_path_index - 1, coord := c } } := by
  unfold tick
  rw [ha]
  simp [hstate, h0, hc, FOLLOW_PATH_HOME, FOLLOW_PATH_FOOD, FOOD_HUNT]

theorem tick_invalidate (r : Rand) (i : Nat) (s : SimState) (a : Ant)
    (ha : s.ants[i]? = some a) (hstate : a.state = FOLLOW_PATH_FOOD)
    (hend : a.current_path_index = (a.current_path.2.length : Int) - 1)
    (hnofood : (get_adjacent_food s.food a.coord).length = 0)
    (ps : List PathObj) (hrem : pyListRemove s.paths a.current_path = some ps) :
    tick r i s = .ok { s with
      paths := ps,
      ants := s.ants.map (fun b =>
        if b.current_path.2 = a.current_path.2
        then { b with state := FOOD_HUNT } else b) } := by
  unfold tick
  rw [ha]
  simp [hstate, hend, hnofood, hrem, FOLLOW_PATH_FOOD, FOOD_HUNT]

end Ants

namespace Ants

theorem firstStep_eq_none (c : Coord) :
    ∀ dirs : List Coord, firstStep dirs c = none ↔
      ∀ v ∈ dirs, ¬ inBounds (c.1 + v.1, c.2 + v.2) := by
  intro dirs
  induction dirs with
  | nil => simp [firstStep]
  | cons d t ih =>
    rw [firstStep, List.findSome?_cons]
    by_cases hd : inBounds (c.1 + d.1, c.2 + d.2)
    · rw [if_pos hd]
      simp [hd]
    · rw [if_neg hd]
      rw [firstStep] at ih
      simp [ih, hd]

theorem firstStep_eq_some (c : Coord) :
    ∀ (dirs : List Coord) (np : Coord), firstStep dirs c = some np →
      ∃ l0 v l1, dirs = l0 ++ v :: l1
        ∧ np = (c.1 + v.1, c.2 + v.2) ∧ inBounds np
        ∧ ∀ u ∈ l0, ¬ inBounds (c.1 + u.1, c.2 + u.2) := by
  intro dirs
  induction dirs with
  | nil => intro np h; simp [firstStep] at h
  | cons d t ih =>
    intro np h
    rw [firstStep, List.findSome?_cons] at h
    by_cases hd : inBounds (c.1 + d.1, c.2 + d.2)
    · rw [if_pos hd] at h
      obtain rfl : (c.1 + d.1, c.2 + d.2) = np := by simpa using h
      exact ⟨[], d, t, by simp, rfl, hd, by simp⟩
    · rw [if_neg hd] at h
      obtain ⟨l0, v, l1, rfl, hnp, hb2, hl0⟩ := ih np h
      refine ⟨d :: l0, v, l1, by simp, hnp, hb2, ?_⟩
      intro u hu
      rcases List.mem_cons.mp hu with rfl | hu
      · exact hd
      · exact hl0 u hu

end Ants

namespace Ants

theorem tick_walk_none (r : Rand) (i : Nat) (s : SimState) (a : Ant)
    (ha : s.ants[i]? = some a) (hstate : a.state = FOOD_HUNT)
    (hnofood : (get_adjacent_food s.food a.coord).length = 0)
    (hnopaths : get_adjacent_paths a.coord s.paths = [])
    (hnone : firstStep r.dirs a.coord = none) :
    tick r i s = .ok s := by
  unfold tick
  rw [ha]
  simp [hstate, hnofood, hnopaths, hnone]

theorem tick_walk_trunc (r : Rand) (i : Nat) (s : SimState) (a : Ant)
    (ha : s.ants[i]? = some a) (hstate : a.state = FOOD_HUNT)
    (hnofood : (get_adjacent_food s.food a.coord).length = 0)
    (hnopaths : get_adjacent_paths a.coord s.paths = []) (np : Coord)
    (hsome : firstStep r.dirs a.coord = some np)
    (hmem : np ∈ a.current_path.2) :
    tick r i s = .ok { s with
      ants := s.ants.set i
        { a with
            coord := np,
            current_path :=
              (r.freshId, a.current_path.2.take (a.current_path.2.indexOf np + 1)),
            current_path_index := (a.current_path.2.indexOf np : Int) } } := by
  unfold tick
  rw [ha]
  simp [hstate, hnofood, hnopaths, hsome, hmem]

theorem tick_walk_append (r : Rand) (i : Nat) (s : SimState) (a : Ant)
    (ha : s.ants[i]? = some a) (hstate : a.state = FOOD_HUNT)
    (hnofood : (get_adjacent_food s.food a.coord).length = 0)
    (hnopaths : get_adjacent_paths a.coord s.paths = []) (np : Coord)
    (hsome : firstStep r.dirs a.coord = some np)
    (hmem : np ∉ a.current_path.2) :
    tick r i s = .ok { s with
      ants := s.ants.set i
        { a with
            coord := np,
            current_path := (a.current_path.1, a.current_path.2 ++ [np]),
            current_path_index := a.current_path_index + 1 } } := by
  unfold tick
  rw [ha]
  simp [hstate, hnofood, hnopaths, hsome, hmem]

theorem indexOf_lt_length_of_mem {α : Type} [BEq α] [LawfulBEq α] (c : α) :
    ∀ l : List α, c ∈ l → l.indexOf c < l.length := by
  intro l
  induction l with
  | nil => intro h; simp at h
  | cons a t ih =>
    intro h
    rw [List.indexOf_cons]
    by_cases hac : (a == c) = true
    · simp [hac]
    · have hct : c ∈ t := by
        rcases List.mem_cons.mp h with rfl | h1
        · simp at hac
        · exact h1
      have := ih hct
      simp only [hac, cond_false, List.length_cons]
      omega

theorem getElem?_indexOf_self {α : Type} [BEq α] [LawfulBEq α] (c : α) :
    ∀ l : List α, c ∈ l → l[l.indexOf c]? = some c := by
  intro l
  induction l with
  | nil => intro h; simp at h
  | cons a t ih =>
    intro h
    rw [List.indexOf_cons]
    by_cases hac : (a == c) = true
    · have : a = c := eq_of_beq hac
      subst this
      simp [hac]
    · have hct : c ∈ t := by
        rcases List.mem_cons.mp h with rfl | h1
        · simp at hac
        · exact h1
      simp only [hac, cond_false]
      rw [List.getElem?_cons_succ]
      exact ih hct

theorem count_eq_one_of_nodup_mem {α : Type} [BEq α] [LawfulBEq α] (c : α) :
    ∀ l : List α, l.Nodup → c ∈ l → l.count c = 1 := by
  intro l
  induction l with
  | nil => intro _ h; simp at h
  | cons a t ih =>
    intro hnd h
    rcases List.nodup_cons.mp hnd with ⟨hat, hndt⟩
    rw [List.count_cons]
    by_cases hca : c = a
    · subst hca
      have h0 : t.count c = 0 := List.count_eq_zero.mpr hat
      simp [h0]
    · have hct : c ∈ t := by
        rcases List.mem_cons.mp h with rfl | h1
        · exact absurd rfl hca
        · exact h1
      have h1 : t.count c = 1 := ih hndt hct
      have hac : ¬ a = c := fun hh => hca hh.symm
      simp [h1, hac]

theorem take_indexOf_getLast {α : Type} [BEq α] [LawfulBEq α]
    (l : List α) (c : α) (h : c ∈ l) :
    (l.take (l.indexOf c + 1)).getLast? = some c := by
  rw [List.take_succ, getElem?_indexOf_self c l h]
  simp only [Option.toList_some]
  exact List.getLast?_concat _

theorem take_indexOf_count {α : Type} [BEq α] [LawfulBEq α]
    (l : List α) (c : α) (h : c ∈ l) (hnd : l.Nodup) :
    (l.take (l.indexOf c + 1)).count c = 1 := by
  have h1 := (List.take_sublist (l.indexOf c + 1) l).count_le c
  have h2 : l.count c = 1 := count_eq_one_of_nodup_mem c l hnd h
  have h3 : c ∈ l.take (l.indexOf c + 1) := by
    have h4 := take_indexOf_getLast l c h
    have h5 : c ∈ (l.take (l.indexOf c + 1)).getLast? := by
      rw [h4]; rfl
    rcases List.mem_getLast?_eq_getLast h5 with ⟨hne, heq⟩
    have h7 := List.getLast_mem hne
    rwa [← heq] at h7
  have h6 := List.count_pos_iff.mpr h3
  omega

end Ants

namespace Ants

theorem mem_antNeighbourOffsets (o : Int × Int) :
    o ∈ antNeighbourOffsets ↔ o ∈ offsets ∧ (o.2 ≠ 0 ∨ o.1 ≠ 0) := by
  constructor
  · intro h
    fin_cases h <;> exact ⟨by decide, by decide⟩
  · rintro ⟨h9, hne⟩
    fin_cases h9 <;> simp_all <;> decide

theorem mem_get_adjacent_paths (pos : Coord) (paths : List PathObj)
    (p : PathObj) (j : Nat) :
    (p, j) ∈ get_adjacent_paths pos paths ↔
      ∃ o ∈ antNeighbourOffsets,
        inBounds (pos.1 + o.1, pos.2 + o.2)
        ∧ p ∈ paths ∧ (pos.1 + o.1, pos.2 + o.2) ∈ p.2
        ∧ j = p.2.indexOf (pos.1 + o.1, pos.2 + o.2) := by
  rw [get_adjacent_paths, List.mem_flatMap]
  constructor
  · rintro ⟨o, ho, hmem⟩
    dsimp only at hmem
    split at hmem
    case isTrue hc =>
      rw [List.mem_map] at hmem
      obtain ⟨x, hx, heq⟩ := hmem
      rw [List.mem_filter] at hx
      obtain ⟨hxp, hxin⟩ := hx
      obtain ⟨h1, h2⟩ := Prod.mk.injEq .. |>.mp heq
      subst h1
      refine ⟨o, (mem_antNeighbourOffsets o).mpr ⟨ho, hc.1⟩, ?_, hxp, ?_, ?_⟩
      · obtain ⟨hn, b1, b2, b3, b4⟩ := hc
        exact ⟨b3, b4, b1, b2⟩
      · simpa using hxin
      · exact h2.symm
    case isFalse => simp at hmem
  · rintro ⟨o, ho, hb, hp, hin, rfl⟩
    obtain ⟨ho9, hne⟩ := (mem_antNeighbourOffsets o).mp ho
    refine ⟨o, ho9, ?_⟩
    dsimp only
    rw [if_pos ?side]
    case side =>
      obtain ⟨b1, b2, b3, b4⟩ := hb
      exact ⟨hne, b3, b4, b1, b2⟩
    rw [List.mem_map]
    exact ⟨p, List.mem_filter.mpr ⟨hp, by simpa using hin⟩, rfl⟩

theorem get_adjacent_paths_index_lt (pos : Coord) (paths : List PathObj) :
    ∀ pj ∈ get_adjacent_paths pos paths, pj.2 < pj.1.2.length := by
  intro pj hm
  obtain ⟨p, j⟩ := pj
  rw [mem_get_adjacent_paths] at hm
  obtain ⟨o, _, _, _, hin, rfl⟩ := hm
  exact indexOf_lt_length_of_mem _ _ hin

theorem tick_adopt (r : Rand) (i : Nat) (s : SimState) (a : Ant)
    (ha : s.ants[i]? = some a) (hstate : a.state = FOOD_HUNT)
    (hnofood : (get_adjacent_food s.food a.coord).length = 0)
    (hlen : 1 ≤ (get_adjacent_paths a.coord s.paths).length)
    (np : PathObj × Nat)
    (hnp : np = (get_adjacent_paths a.coord s.paths).getD
      (r.choice % (get_adjacent_paths a.coord s.paths).length) ((0, []), 0))
    (c : Coord) (hc : pyGet np.1.2 (np.2 : Int) = .ok c) :
    tick r i s = .ok { s with
      ants := s.ants.set i
        { a with
            current_path := (r.freshId, np.1.2),
            current_path_index := (np.2 : Int),
            coord := c,
            state := FOLLOW_PATH_FOOD } } := by
  unfold tick
  rw [ha]
  subst hnp
  simp only [List.getD_eq_getElem?_getD] at hc
  simp [hstate, hnofood, hlen, hc]

end Ants

namespace Ants

theorem home_descend (r : Rand) (food : List Coord) (paths : List PathObj)
    (pid : Nat) (path : List Coord) :
    ∀ k : Nat, k < path.length →
      iterTick r 0 (k + 1)
        ⟨food, paths,
          [⟨path.getD k (0, 0), FOLLOW_PATH_HOME, (pid, path), (k : Int)⟩]⟩
      = .ok ⟨food, paths,
          [⟨path.getD 0 (0, 0), FOLLOW_PATH_FOOD, (pid, path), 0⟩]⟩ := by
  intro k
  induction k with
  | zero =>
    intro hk
    rw [iterTick]
    rw [tick_home_flip r 0
      ⟨food, paths,
        [⟨path.getD 0 (0, 0), FOLLOW_PATH_HOME, (pid, path), ((0 : Nat) : Int)⟩]⟩
      ⟨path.getD 0 (0, 0), FOLLOW_PATH_HOME, (pid, path), ((0 : Nat) : Int)⟩
      rfl rfl rfl]
    simp [iterTick]
  | succ k ih =>
    intro hk
    have hne : ((k + 1 : Nat) : Int) ≠ 0 := by
      push_cast
      omega
    have hcast : ((k + 1 : Nat) : Int) - 1 = ((k : Nat) : Int) := by
      push_cast
      ring
    have hc : pyGet path (((k + 1 : Nat) : Int) - 1) = .ok (path.getD k (0, 0)) := by
      rw [hcast]
      exact pyGet_coe path k (0, 0) (by omega)
    rw [iterTick]
    rw [tick_home_step r 0
      ⟨food, paths,
        [⟨path.getD (k + 1) (0, 0), FOLLOW_PATH_HOME, (pid, path),
          ((k + 1 : Nat) : Int)⟩]⟩
      ⟨path.getD (k + 1) (0, 0), FOLLOW_PATH_HOME, (pid, path),
        ((k + 1 : Nat) : Int)⟩
      rfl rfl hne (path.getD k (0, 0)) hc]
    rw [hcast]
    simpa using ih (by omega)

end Ants

namespace Ants

/-- C6 (amended): a FOOD_HUNT agent with food adjacent publishes an
unchanged copy of its private path (a new object with a fresh id) and
transitions to FOLLOW_PATH_HOME, leaving its coordinate, path and cursor
untouched; under the agent invariant, when the cursor sits at the final
index the path ends at the agent's pre-food position.  The published route
never gains the food cell, but can already contain the food coordinate
when food was toggled onto a visited cell (see the counterexample). -/
theorem claimC6_publish_behaviour (r : Rand) (i : Nat) (s : SimState) (a : Ant)
    (ha : s.ants[i]? = some a) (hstate : a.state = FOOD_HUNT)
    (hfood : 1 ≤ (get_adjacent_food s.food a.coord).length) :
    tick r i s = .ok { s with
      paths := s.paths ++ [(r.freshId, a.current_path.2)],
      ants := s.ants.set i { a with state := FOLLOW_PATH_HOME } }
    ∧ (agentInv a → a.current_path.2 ≠ [] →
        a.current_path_index = (a.current_path.2.length : Int) - 1 →
        a.current_path.2.getLast? = some a.coord) := by
  refine ⟨tick_publish r i s a ha hstate hfood, ?_⟩
  intro hinv hne hend
  have hlen : 1 ≤ a.current_path.2.length := by
    cases hp : a.current_path.2 with
    | nil => exact absurd hp hne
    | cons x t => simp [hp]
  have h0 : 0 ≤ a.current_path_index := by
    rw [hend]; omega
  have h1 := hinv.1 h0
  have h2 : a.current_path_index.toNat = a.current_path.2.length - 1 := by
    rw [hend]; omega
  rw [h2] at h1
  rw [List.getLast?_eq_getElem?]
  exact h1

/-- C1 (amended): an agent in FOLLOW_PATH_FOOD at the final index of its
path with no adjacent food removes from the registry the first path that is
the same object as or structurally equal to its current_path (hypothesis
hrem supplies the removal result; with no such path the tick raises
instead), and within that same tick forces every agent whose current_path
is structurally equal — not merely identity-equal — back to FOOD_HUNT;
in particular both agents of the shared-path scenario (see the witness). -/
theorem claimC1_invalidation (r : Rand) (i : Nat) (s : SimState) (a : Ant)
    (ha : s.ants[i]? = some a) (hstate : a.state = FOLLOW_PATH_FOOD)
    (hend : a.current_path_index = (a.current_path.2.length : Int) - 1)
    (hnofood : (get_adjacent_food s.food a.coord).length = 0)
    (ps : List PathObj) (hrem : pyListRemove s.paths a.current_path = some ps) :
    tick r i s = .ok { s with
      paths := ps,
      ants := s.ants.map (fun b =>
        if b.current_path.2 = a.current_path.2
        then { b with state := FOOD_HUNT } else b) }
    ∧ ∀ b ∈ s.ants.map (fun b =>
        if b.current_path.2 = a.current_path.2
        then { b with state := FOOD_HUNT } else b),
        b.current_path.2 = a.current_path.2 → b.state = FOOD_HUNT := by
  refine ⟨tick_invalidate r i s a ha hstate hend hnofood ps hrem, ?_⟩
  intro b hb heq
  rcases List.mem_map.mp hb with ⟨b0, hb0, rfl⟩
  by_cases h : b0.current_path.2 = a.current_path.2
  · simp only [if_pos h]
  · simp only [if_neg h] at heq ⊢
    exact absurd heq h

/-- C7: the adjacent-paths query returns exactly, for every published path
containing an in-bounds cell 8-adjacent to the agent (its own cell
excluded, every such match included), that path paired with the index of
the matching coordinate; a FOOD_HUNT agent with no adjacent food and a
non-empty query result adopts the pair drawn by the random choice: the
cursor becomes the index (always within the path), the coordinate the
matched cell current_path[path_cursor], the state FOLLOW_PATH_FOOD, and
current_path becomes a copy with a fresh object id that coincides with no
registry object, so later cursor motion cannot touch the registry path. -/
theorem claimC7_adoption (r : Rand) (i : Nat) (s : SimState) (a : Ant)
    (ha : s.ants[i]? = some a) (hstate : a.state = FOOD_HUNT)
    (hnofood : (get_adjacent_food s.food a.coord).length = 0)
    (hne : get_adjacent_paths a.coord s.paths ≠ [])
    (hfresh : ∀ q ∈ s.paths, q.1 ≠ r.freshId) :
    (∀ (p : PathObj) (j : Nat),
      (p, j) ∈ get_adjacent_paths a.coord s.paths ↔
        ∃ o ∈ antNeighbourOffsets,
          inBounds (a.coord.1 + o.1, a.coord.2 + o.2)
          ∧ p ∈ s.paths ∧ (a.coord.1 + o.1, a.coord.2 + o.2) ∈ p.2
          ∧ j = p.2.indexOf (a.coord.1 + o.1, a.coord.2 + o.2))
    ∧ ((get_adjacent_paths a.coord s.paths).getD
        (r.choice % (get_adjacent_paths a.coord s.paths).length)
        ((0, []), 0)).2
      < ((get_adjacent_paths a.coord s.paths).getD
          (r.choice % (get_adjacent_paths a.coord s.paths).length)
          ((0, []), 0)).1.2.length
    ∧ tick r i s = .ok { s with
        ants := s.ants.set i
          { a with
              current_path := (r.freshId,
                ((get_adjacent_paths a.coord s.paths).getD
                  (r.choice % (get_adjacent_paths a.coord s.paths).length)
                  ((0, []), 0)).1.2),
              current_path_index :=
                (((get_adjacent_paths a.coord s.paths).getD
                  (r.choice % (get_adjacent_paths a.coord s.paths).length)
                  ((0, []), 0)).2 : Int),
              coord := ((get_adjacent_paths a.coord s.paths).getD
                  (r.choice % (get_adjacent_paths a.coord s.paths).length)
                  ((0, []), 0)).1.2.getD
                (((get_adjacent_paths a.coord s.paths).getD
                  (r.choice % (get_adjacent_paths a.coord s.paths).length)
                  ((0, []), 0)).2) (0, 0),
              state := FOLLOW_PATH_FOOD } }
    ∧ ∀ q ∈ s.paths, r.freshId ≠ q.1 := by
  have hlen : 1 ≤ (get_adjacent_paths a.coord s.paths).length := by
    cases hp : get_adjacent_paths a.coord s.paths with
    | nil => exact absurd hp hne
    | cons x t => simp [hp]
  have hmod : r.choice % (get_adjacent_paths a.coord s.paths).length
      < (get_adjacent_paths a.coord s.paths).length :=
    Nat.mod_lt _ (by omega)
  have hmem : (get_adjacent_paths a.coord s.paths).getD
      (r.choice % (get_adjacent_paths a.coord s.paths).length) ((0, []), 0)
      ∈ get_adjacent_paths a.coord s.paths := by
    rw [List.getD_eq_getElem?_getD, List.getElem?_eq_getElem hmod,
      Option.getD_some]
    exact List.getElem_mem hmod
  have hlt := get_adjacent_paths_index_lt a.coord s.paths _ hmem
  refine ⟨fun p j => mem_get_adjacent_paths a.coord s.paths p j, hlt, ?_, ?_⟩
  · exact tick_adopt r i s a ha hstate hnofood hlen _ rfl _
      (pyGet_coe _ _ (0, 0) hlt)
  · intro q hq h
    exact hfresh q hq h.symm

/-- C5: the random walk of a FOOD_HUNT agent with no adjacent food and no
adjacent paths, for an arbitrary shuffle of the 8 directions: if no
direction lands in bounds the agent does not move this tick; otherwise
exactly the first in-bounds direction of the shuffled order is applied.
Landing on a cell already in the private path truncates the path to end at
that cell's (first) index with the cursor on it — on a loop-free path the
cell then occurs exactly once, as the final element — while landing on a
fresh cell appends it and advances the cursor by one. -/
theorem claimC5_random_walk (r : Rand) (i : Nat) (s : SimState) (a : Ant)
    (ha : s.ants[i]? = some a) (hstate : a.state = FOOD_HUNT)
    (hnofood : (get_adjacent_food s.food a.coord).length = 0)
    (hnopaths : get_adjacent_paths a.coord s.paths = [])
    (hperm : r.dirs.Perm directions) :
    ((∀ v ∈ r.dirs, ¬ inBounds (a.coord.1 + v.1, a.coord.2 + v.2)) →
        tick r i s = .ok s)
    ∧ ∀ np, firstStep r.dirs a.coord = some np →
        (∃ l0 v l1, r.dirs = l0 ++ v :: l1
            ∧ np = (a.coord.1 + v.1, a.coord.2 + v.2) ∧ inBounds np
            ∧ ∀ u ∈ l0, ¬ inBounds (a.coord.1 + u.1, a.coord.2 + u.2))
        ∧ (np ∈ a.current_path.2 →
            tick r i s = .ok { s with
              ants := s.ants.set i
                { a with
                    coord := np,
                    current_path := (r.freshId,
                      a.current_path.2.take (a.current_path.2.indexOf np + 1)),
                    current_path_index := (a.current_path.2.indexOf np : Int) } }
            ∧ (a.current_path.2.Nodup →
                (a.current_path.2.take (a.current_path.2.indexOf np + 1)).count np = 1
                ∧ (a.current_path.2.take
                    (a.current_path.2.indexOf np + 1)).getLast? = some np))
        ∧ (np ∉ a.current_path.2 →
            tick r i s = .ok { s with
              ants := s.ants.set i
                { a with
                    coord := np,
                    current_path := (a.current_path.1, a.current_path.2 ++ [np]),
                    current_path_index := a.current_path_index + 1 } }) := by
  refine ⟨fun hall => tick_walk_none r i s a ha hstate hnofood hnopaths
      ((firstStep_eq_none a.coord r.dirs).mpr hall),
    fun np hnp => ⟨firstStep_eq_some a.coord r.dirs np hnp, ?_, ?_⟩⟩
  · intro hmem
    refine ⟨tick_walk_trunc r i s a ha hstate hnofood hnopaths np hnp hmem, ?_⟩
    intro hnd
    exact ⟨take_indexOf_count _ np hmem hnd, take_indexOf_getLast _ np hmem⟩
  · intro hmem
    exact tick_walk_append r i s a ha hstate hnofood hnopaths np hnp hmem

/-- C4 (amended): an agent at the final index of its non-empty path with
food adjacent flips to FOLLOW_PATH_HOME on one tick and, over the next
ticks, decrements the cursor by one per tick (moving onto
current_path[cursor], second conjunct) down to cursor 0, where it flips
back to FOLLOW_PATH_FOOD standing on current_path[0] (length+1 ticks in
total, first conjunct) — which, as the counterexample shows, need not be
the home coordinate. -/
theorem claimC4_round_trip (r : Rand) (food : List Coord)
    (paths : List PathObj) (pid : Nat) (path : List Coord)
    (hne : path ≠ [])
    (hfood : 1 ≤ (get_adjacent_food food
      (path.getD (path.length - 1) (0, 0))).length) :
    iterTick r 0 (path.length + 1)
      ⟨food, paths,
        [⟨path.getD (path.length - 1) (0, 0), FOLLOW_PATH_FOOD, (pid, path),
          (path.length : Int) - 1⟩]⟩
      = .ok ⟨food, paths,
          [⟨path.getD 0 (0, 0), FOLLOW_PATH_FOOD, (pid, path), 0⟩]⟩
    ∧ ∀ (s : SimState) (i : Nat) (a : Ant) (c : Coord),
        s.ants[i]? = some a → a.state = FOLLOW_PATH_HOME →
        a.current_path_index ≠ 0 →
        pyGet a.current_path.2 (a.current_path_index - 1) = .ok c →
        tick r i s = .ok { s with
          ants := s.ants.set i
            { a with
                current_path_index := a.current_path_index - 1,
                coord := c } } := by
  constructor
  · have hlen : 1 ≤ path.length := by
      cases hp : path with
      | nil => exact absurd hp hne
      | cons x t => simp [hp]
    have hcast2 : ((path.length - 1 : Nat) : Int) = (path.length : Int) - 1 := by
      omega
    rw [iterTick]
    rw [tick_arrive r 0
      ⟨food, paths, [⟨path.getD (path.length - 1) (0, 0), FOLLOW_PATH_FOOD,
        (pid, path), (path.length : Int) - 1⟩]⟩
      ⟨path.getD (path.length - 1) (0, 0), FOLLOW_PATH_FOOD, (pid, path),
        (path.length : Int) - 1⟩
      rfl rfl rfl hfood]
    have hfin := home_descend r food paths pid path (path.length - 1) (by omega)
    rw [Nat.sub_add_cancel hlen] at hfin
    rw [hcast2] at hfin
    simpa using hfin
  · intro s i a c h1 h2 h3 h4
    exact tick_home_step r i s a h1 h2 h3 c h4

end Ants

namespace Ants

/-- Witness for C6 (amended) at the concrete publish scenario. -/
theorem claimC6_publish_behaviour_witness :
    tick rand0 0 sPublish = .ok { sPublish with
      paths := [(5, [(26, 25)])],
      ants := [⟨(26, 25), FOLLOW_PATH_HOME, (0, [(26, 25)]), 0⟩] }
    ∧ ([(26, 25)] : List Coord).getLast? = some (26, 25) := by
  have h := claimC6_publish_behaviour rand0 0 sPublish
    ⟨(26, 25), FOOD_HUNT, (0, [(26, 25)]), 0⟩ rfl rfl (by decide)
  exact ⟨h.1, h.2 (by decide) (by decide) (by decide)⟩

/-- Witness for C1 (amended): the two-agent shared-path scenario; the
registry path is removed and both agents are reset in the same tick. -/
theorem claimC1_invalidation_witness :
    tick rand0 0 sInvalidate = .ok { sInvalidate with
      paths := [],
      ants := sInvalidate.ants.map (fun b =>
        if b.current_path.2 = pathAB
        then { b with state := FOOD_HUNT } else b) } := by
  have h := claimC1_invalidation rand0 0 sInvalidate
    ⟨(27, 25), FOLLOW_PATH_FOOD, (1, pathAB), 1⟩ rfl rfl (by decide) (by decide)
    [] (by decide)
  exact h.1

/-- Witness for C7: the agent at (26,24) adopts entry 1 of the two matches
of the published path, landing on (27,25) with a fresh copy (id 9). -/
theorem claimC7_adoption_witness :
    tick randAdopt 0 sAdopt = .ok ⟨[], [(0, pathAB)],
      [⟨(27, 25), FOLLOW_PATH_FOOD, (9, pathAB), 1⟩]⟩ := by
  have h := claimC7_adoption randAdopt 0 sAdopt
    ⟨(26, 24), FOOD_HUNT, (3, []), -1⟩ rfl rfl (by decide) (by decide) (by decide)
  exact h.2.2.1

/-- Witness for C5: the walk appends the first in-bounds step (27,25). -/
theorem claimC5_random_walk_witness :
    tick randWalk 0 sWalk = .ok ⟨[], [],
      [⟨(27, 25), FOOD_HUNT, (0, [(26, 25), (27, 25)]), 1⟩]⟩ := by
  have h := claimC5_random_walk randWalk 0 sWalk
    ⟨(26, 25), FOOD_HUNT, (0, [(26, 25)]), 0⟩ rfl rfl (by decide) (by decide)
    (List.Perm.refl _)
  exact (h.2 (27, 25) (by decide)).2.2 (by decide)

/-- Witness for C4 (amended): a two-cell path walked home and back out in
three ticks, ending on (26,25), not on the home coordinate. -/
theorem claimC4_round_trip_witness :
    iterTick rand0 0 3
      ⟨[(28, 25)], [], [⟨(27, 25), FOLLOW_PATH_FOOD, (1, pathAB), 1⟩]⟩
      = .ok ⟨[(28, 25)], [], [⟨(26, 25), FOLLOW_PATH_FOOD, (1, pathAB), 0⟩]⟩ := by
  have h := (claimC4_round_trip rand0 [(28, 25)] [] 1 pathAB
    (by decide) (by decide)).1
  exact h

end Ants
